import Mathlib

/-!
Verification of the `electro-modelling` repository.

The repository has two source files:
  * `src/electro_modelling/models/discriminator.py` — a DCGAN discriminator
    built from `nn.Conv2d`, `nn.BatchNorm2d` and `nn.LeakyReLU`, with a
    `forward` that applies the model and flattens per-sample outputs with
    `predictions.view(len(predictions), -1)`;
  * `src/electro_modelling/datasets/techno_dataloader.py` — a data loader that
    unpickles a tensor cache, wraps it in a `TechnoDatasetSpectrogram` with a
    fixed `transforms.Normalize((-3.76, 0), (10.05, 1))` transform, and hands
    it to a `DataLoader` with `shuffle=True`.

We embed the code at three levels:
  * a symbolic `Layer` list for the architecture (which layers, in which
    order, with which hyperparameters);
  * a shape semantics `layerShape` / `modelShape` for the library layers,
    following the PyTorch shape rules (a 2-D convolution with kernel `k`,
    stride `s` and no padding maps spatial size `h` to `(h - k) / s + 1` and
    requires `k ≤ h`; `BatchNorm2d` in its default training mode requires a
    4-D input with more than one value per channel; `LeakyReLU` is shape
    preserving);
  * a value semantics on `Tensor` (a shape together with flat rational data)
    for the operations whose numeric effect the claims mention:
    `Tensor.view2` for `view(len(predictions), -1)` and `normalizeSample`
    for `transforms.Normalize`.

Repository code that is referenced but not present under `src/`
(`load_pickle` from `electro_modelling.helpers.utils` and
`TechnoDatasetSpectrogram` from `electro_modelling.datasets.techno_dataset`)
is modelled from the spec, as noted on the corresponding definitions.
-/

/-- A tensor: a shape (list of dimension sizes, outermost first) together
with its elements in row-major (C-contiguous) order as flat data.  Elements
are rationals; the claims under verification never depend on floating-point
rounding. -/
structure Tensor where
  shape : List Nat
  data : List ℚ
deriving Repr, DecidableEq, Inhabited

/-- Python `len` of a tensor: its first (outermost) dimension.  For the
output of the discriminator stack this is the number of samples. -/
def Tensor.len (t : Tensor) : Nat := t.shape.headD 0

/-- Embedding of `t.view(len(t), -1)`: reshape to exactly two dimensions,
first dimension `len(t)` and the `-1` resolved to the product of the
remaining dimensions.  `view` never touches the underlying data. -/
def Tensor.view2 (t : Tensor) : Tensor :=
  { shape := [t.len, t.shape.tail.prod], data := t.data }

/-- The layers the discriminator is built from, with their constructor
hyperparameters.  `conv2d inCh outCh k s` is `nn.Conv2d(inCh, outCh, k,
stride=s)` (default padding 0); `batchNorm2d f` is
`nn.BatchNorm2d(num_features=f)`; `leakyReLU negSlope inplace` is
`nn.LeakyReLU(negative_slope=negSlope, inplace=inplace)`. -/
inductive Layer where
  | conv2d (inCh outCh kernel stride : Nat)
  | batchNorm2d (numFeatures : Nat)
  | leakyReLU (negSlope : ℚ) (inplace : Bool)
deriving Repr, DecidableEq

/-- The `Discriminator` module.  The source constructor signature is
`__init__(self, img_chan=1, hidden_dim=16)`; the two arguments are the only
state the layer stack depends on. -/
structure Discriminator where
  img_chan : Nat := 1
  hidden_dim : Nat := 16
deriving Repr, DecidableEq

/-- Embedding of `Discriminator.make_disc_block`: the `nn.Sequential` of a
convolution, a batch normalization and a LeakyReLU activation with negative
slope 0.2, in this order, as a list of layers. -/
def Discriminator.make_disc_block ( input_channels output_channels kernel_size stride : Nat) : List Layer :=
  [Layer.conv2d input_channels output_channels kernel_size stride,
   Layer.batchNorm2d output_channels,
   Layer.leakyReLU (0.2 : ℚ) true]

/-- Embedding of the `self.model` built in `Discriminator.__init__`:
`nn.Sequential` of two disc blocks and a final convolution to one channel,
every convolution with kernel size 4 and stride 2.  `nn.Sequential` applies
its children in order, so nesting flattens to one layer list. -/
def Discriminator.model (d : Discriminator) : List Layer :=
  Discriminator.make_disc_block d.img_chan d.hidden_dim 4 2 ++
  Discriminator.make_disc_block d.hidden_dim (d.hidden_dim * 2) 4 2 ++
  [Layer.conv2d (d.hidden_dim * 2) 1 4 2]

/-- The (inCh, outCh) channel pairs of the convolutions of a layer stack, in
order. -/
def convChannels (layers : List Layer) : List (Nat × Nat) :=
  layers.filterMap fun l =>
    match l with
    | Layer.conv2d i o _ _ => some (i, o)
    | _ => none

/-- Shape rule of `nn.Conv2d(inCh, outCh, k, stride=s)` with the default
padding 0 and dilation 1.  PyTorch accepts a batched `(N, C, H, W)` or an
unbatched `(C, H, W)` input; the channel count must equal `inCh` and each
spatial size must be at least `k`, and spatial size `h` becomes
`(h - k) / s + 1` (floor division). -/
def conv2dShape (inCh outCh k s : Nat) : List Nat → Option (List Nat)
  | [n, c, h, w] =>
    if c = inCh ∧ 0 < s ∧ k ≤ h ∧ k ≤ w then
      some [n, outCh, (h - k) / s + 1, (w - k) / s + 1]
    else none
  | [c, h, w] =>
    if c = inCh ∧ 0 < s ∧ k ≤ h ∧ k ≤ w then
      some [outCh, (h - k) / s + 1, (w - k) / s + 1]
    else none
  | _ => none

/-- Shape rule of `nn.BatchNorm2d(num_features=f)` in its default training
mode: the input must be 4-D `(N, C, H, W)` with `C = f`, and training-mode
batch statistics need more than one value per channel (`N * H * W > 1`).
The shape is preserved. -/
def batchNorm2dShape (numFeatures : Nat) : List Nat → Option (List Nat)
  | [n, c, h, w] =>
    if c = numFeatures ∧ 1 < n * h * w then some [n, c, h, w] else none
  | _ => none

/-- Shape rule of `nn.LeakyReLU`: elementwise, accepts any shape and
preserves it. -/
def leakyReLUShape (sh : List Nat) : Option (List Nat) := some sh

/-- Shape rule of one layer. -/
def layerShape : Layer → List Nat → Option (List Nat)
  | Layer.conv2d i o k s, sh => conv2dShape i o k s sh
  | Layer.batchNorm2d f, sh => batchNorm2dShape f sh
  | Layer.leakyReLU _ _, sh => leakyReLUShape sh

/-- Shape rule of an `nn.Sequential` stack: the layers applied in order,
failing as soon as one layer rejects its input. -/
def modelShape : List Layer → List Nat → Option (List Nat)
  | [], sh => some sh
  | l :: ls, sh => (layerShape l sh).bind (modelShape ls)

/-- Shape rule of `predictions.view(len(predictions), -1)`: the result has
exactly two dimensions, the first is `len(predictions)` and the `-1` is
resolved to the product of the remaining dimensions.  A 0-D input has no
`len`. -/
def view2Shape : List Nat → Option (List Nat)
  | [] => none
  | n :: rest => some [n, rest.prod]

/-- Shape rule of `Discriminator.forward`: the model stack followed by the
flattening view. -/
def Discriminator.forwardShape (d : Discriminator) (sh : List Nat) : Option (List Nat) :=
  (modelShape d.model sh).bind view2Shape

/-- Embedding of `Discriminator.forward` at the value level.  The body of the
source function is exactly: `predictions = self.model(x)` followed by
`output = predictions.view(len(predictions), -1)`.  The composed module
`self.model` is a parameter here; `forward` itself performs no computation
other than applying it and reshaping. -/
def Discriminator.forward (model : Tensor → Tensor) (x : Tensor) : Tensor :=
  Tensor.view2 (model x)

/-- Value semantics of `transforms.Normalize(means, stds)` on one
`(C, H, W)` sample: element `i` of the flat data lies in channel
`i / (H * W)` and is mapped to `(x - mean[c]) / std[c]`.  Normalize leaves
the shape unchanged and is elementwise per channel. -/
def normalizeSample (means stds : List ℚ) (t : Tensor) : Tensor :=
  match t.shape with
  | [_, h, w] =>
    { shape := t.shape,
      data := t.data.enum.map fun p =>
        (p.2 - means.getD (p.1 / (h * w)) 0) / stds.getD (p.1 / (h * w)) 1 }
  | _ => t

/-- Value semantics of `transforms.Compose(ts)`: apply the transforms in
order. -/
def composeTransforms (ts : List (Tensor → Tensor)) (t : Tensor) : Tensor :=
  ts.foldl (fun acc f => f acc) t

/-- Modelled from the spec: `TechnoDatasetSpectrogram` (from
`electro_modelling.datasets.techno_dataset`, not present under `src/`) wraps
the pickle-based tensor cache together with the normalization transform: it
holds the list of sample tensors and the transform to apply to each sample
on access. -/
structure TechnoDatasetSpectrogram where
  tensors : List Tensor
  transform : Tensor → Tensor

/-- Modelled from the spec: sample access of the dataset applies the
normalization transform to the stored tensor at the given index. -/
def TechnoDatasetSpectrogram.getItem (ds : TechnoDatasetSpectrogram) (i : Nat) : Tensor :=
  ds.transform (ds.tensors.getD i default)

/-- The `torch.utils.data.DataLoader` configuration built by
`techno_data_loader`: the wrapped dataset, the batch size, and the shuffle
flag. -/
structure DataLoader where
  dataset : TechnoDatasetSpectrogram
  batch_size : Nat
  shuffle : Bool

/-- Split a list into consecutive chunks of `n` elements, the last chunk
possibly shorter; the batching rule of `DataLoader` with the default
`drop_last=False`. -/
def chunkList : Nat → List α → List (List α)
  | _, [] => []
  | 0, _ :: _ => []
  | n + 1, x :: xs => (x :: xs).take (n + 1) :: chunkList (n + 1) (xs.drop n)
termination_by _ l => l.length
decreasing_by
  simp only [List.length_drop, List.length_cons]
  omega

/-- One pass of iteration over a `DataLoader`.  With `shuffle=True` the
loader draws a fresh random permutation `order` of the dataset indices (the
`RandomSampler`) and groups the samples, taken in that order, into
consecutive batches of `batch_size`; with `shuffle=False` it uses dataset
order.  The random permutation is a parameter of the iteration. -/
def DataLoader.batches (dl : DataLoader) (order : List Nat) : List (List Tensor) :=
  let idxs := if dl.shuffle then order else List.range dl.dataset.tensors.length
  chunkList dl.batch_size (idxs.map fun i => dl.dataset.getItem i)

/-- Embedding of `techno_data_loader(batch_size, data_dir)`.  `load_pickle`
(from `electro_modelling.helpers.utils`, not present under `src/`) is
modelled from the spec as the function reading the pickled tensor cache at a
path; it is a parameter, so the loader reads from no source other than
`load_pickle data_dir`. -/
def techno_data_loader (load_pickle : String → List Tensor)
    (batch_size : Nat) (data_dir : String) : DataLoader :=
  let transform := composeTransforms [normalizeSample [(-3.76 : ℚ), 0] [(10.05 : ℚ), 1]]
  let tensors := load_pickle data_dir
  let train_set : TechnoDatasetSpectrogram := { tensors := tensors, transform := transform }
  { dataset := train_set, batch_size := batch_size, shuffle := true }

/-- Spec-side description of the loader, written from the spec's words: the
plain composition of the library primitives pickle-load, per-sample
normalize, dataset wrap and shuffled batching, with no further computation.
To be compared with `techno_data_loader`, which is embedded from the
source. -/
def specTechnoLoader (load_pickle : String → List Tensor)
    (batch_size : Nat) (data_dir : String) : DataLoader :=
  { dataset :=
      { tensors := load_pickle data_dir,
        transform := normalizeSample [(-3.76 : ℚ), 0] [(10.05 : ℚ), 1] },
    batch_size := batch_size,
    shuffle := true }

/-- Spec-side description of the default discriminator stack, written from
the spec's words: the plain composition of the library layer shape
functions — convolution, batch normalization, LeakyReLU, convolution, batch
normalization, LeakyReLU, convolution — with no further computation.  To be
compared with `modelShape (Discriminator.model d)`, which is embedded from
the source. -/
def specDiscriminatorShape (sh : List Nat) : Option (List Nat) :=
  ((((((conv2dShape 1 16 4 2 sh).bind
    (batchNorm2dShape 16)).bind
    leakyReLUShape).bind
    (conv2dShape 16 32 4 2)).bind
    (batchNorm2dShape 32)).bind
    leakyReLUShape).bind
    (conv2dShape 32 1 4 2)

/-- Spec-side description of `forward` at shape level: the model composition
followed by the flattening reshape. -/
def specForwardShape (sh : List Nat) : Option (List Nat) :=
  (specDiscriminatorShape sh).bind view2Shape

/-! ### Helper lemmas -/

theorem option_bind_assoc (o : Option α) (f : α → Option β) (g : β → Option γ) :
    (o.bind f).bind g = o.bind fun a => (f a).bind g := by
  cases o <;> rfl

theorem option_bind_some_right (o : Option α) : o.bind some = o := by
  cases o <;> rfl

theorem modelShape_nil (sh : List Nat) : modelShape [] sh = some sh := rfl

theorem chunkList_eq_nil_iff (n : Nat) (l : List α) :
    chunkList (n + 1) l = [] ↔ l = [] := by
  cases l <;> simp [chunkList]

theorem chunkList_flatten (n : Nat) (l : List α) (hn : n ≠ 0) :
    (chunkList n l).flatten = l := by
  induction n, l using chunkList.induct with
  | case1 => simp [chunkList]
  | case2 => exact absurd rfl hn
  | case3 n x xs ih =>
    rw [chunkList, List.flatten_cons, ih (by omega), List.take_succ_cons,
      List.cons_append, List.take_append_drop]

theorem chunkList_dropLast_length (n : Nat) (l : List α) (hn : n ≠ 0) :
    ∀ b ∈ (chunkList n l).dropLast, b.length = n := by
  induction n, l using chunkList.induct with
  | case1 => simp [chunkList]
  | case2 => exact absurd rfl hn
  | case3 n x xs ih =>
    intro b hb
    rw [chunkList] at hb
    rcases hdrop : xs.drop n with _ | ⟨y, ys⟩
    · rw [hdrop] at hb
      simp [chunkList] at hb
    · have hne : chunkList (n + 1) (xs.drop n) ≠ [] := by
        rw [hdrop]; simp [chunkList]
      rw [List.dropLast_cons_of_ne_nil hne] at hb
      rcases List.mem_cons.mp hb with hb | hb
      · subst hb
        have hlen : n < xs.length := by
          by_contra hcon
          push_neg at hcon
          rw [List.drop_eq_nil_of_le hcon] at hdrop
          exact List.noConfusion hdrop
        simp only [List.length_take, List.length_cons]
        omega
      · exact ih (by omega) b hb

theorem map_getD_range (l : List α) (d : α) :
    (List.range l.length).map (fun i => l.getD i d) = l := by
  induction l with
  | nil => simp
  | cons x xs ih =>
    rw [List.length_cons, List.range_succ_eq_map, List.map_cons, List.map_map]
    simp only [List.getD_cons_zero]
    have : ((fun i => (x :: xs).getD i d) ∘ Nat.succ) = fun i => xs.getD i d := by
      funext i
      simp [List.getD_cons_succ]
    rw [this, ih]

/-! ### Claim theorems -/

/-- C4: every discriminator block produced by
`Discriminator.make_disc_block(input_channels, output_channels, kernel_size,
stride)` is exactly the sequential composition, in this order, of a 2-D
convolution from `input_channels` to `output_channels` with the given
`kernel_size` and `stride`, a batch normalization over `output_channels`
features, and a LeakyReLU activation with negative slope 0.2 (the rational
1/5); semantically, the block's shape function is the composition of the
three layers' shape functions in that order. -/
theorem make_disc_block_composition (input_channels output_channels kernel_size stride : Nat) :
    Discriminator.make_disc_block input_channels output_channels kernel_size stride =
      [Layer.conv2d input_channels output_channels kernel_size stride,
       Layer.batchNorm2d output_channels,
       Layer.leakyReLU (1 / 5 : ℚ) true] ∧
    ∀ sh : List Nat,
      modelShape (Discriminator.make_disc_block input_channels output_channels kernel_size stride) sh =
        ((conv2dShape input_channels output_channels kernel_size stride sh).bind
          (batchNorm2dShape output_channels)).bind leakyReLUShape := by
  constructor
  · have h02 : (0.2 : ℚ) = 1 / 5 := by norm_num
    simp [Discriminator.make_disc_block, h02]
  · intro sh
    simp [Discriminator.make_disc_block, modelShape, layerShape,
      option_bind_assoc, option_bind_some_right]

/-- C5: for every `img_chan` and `hidden_dim`,
`Discriminator(img_chan, hidden_dim).model` is the sequential stack, in this
order, of a disc block from `img_chan` to `hidden_dim` channels, a disc
block from `hidden_dim` to `hidden_dim * 2` channels, and a final 2-D
convolution from `hidden_dim * 2` channels to 1 channel; and every
convolution in the stack uses kernel size 4 and stride 2. -/
theorem discriminator_model_topology (img_chan hidden_dim : Nat) :
    Discriminator.model ⟨img_chan, hidden_dim⟩ =
      [Layer.conv2d img_chan hidden_dim 4 2,
       Layer.batchNorm2d hidden_dim,
       Layer.leakyReLU (0.2 : ℚ) true,
       Layer.conv2d hidden_dim (hidden_dim * 2) 4 2,
       Layer.batchNorm2d (hidden_dim * 2),
       Layer.leakyReLU (0.2 : ℚ) true,
       Layer.conv2d (hidden_dim * 2) 1 4 2] ∧
    ∀ i o k s : Nat,
      Layer.conv2d i o k s ∈ Discriminator.model ⟨img_chan, hidden_dim⟩ →
        k = 4 ∧ s = 2 := by
  constructor
  · simp [Discriminator.model, Discriminator.make_disc_block]
  · intro i o k s hmem
    simp only [Discriminator.model, Discriminator.make_disc_block,
      List.append_assoc, List.cons_append, List.nil_append,
      List.mem_cons, List.not_mem_nil, or_false] at hmem
    rcases hmem with h | h | h | h | h | h | h <;>
      first
        | (injection h with h1 h2 h3 h4; exact ⟨h3, h4⟩)
        | exact absurd h (by simp)

/-- C10: constructing `Discriminator()` with no arguments uses the defaults
`img_chan = 1` and `hidden_dim = 16`, so the built model's three
convolution stages have channel counts 1 → 16, 16 → 32 and 32 → 1. -/
theorem discriminator_default_construction :
    ({} : Discriminator).img_chan = 1 ∧
    ({} : Discriminator).hidden_dim = 16 ∧
    convChannels (Discriminator.model {}) = [(1, 16), (16, 32), (32, 1)] :=
  ⟨rfl, rfl, rfl⟩

/-- C1: for every input tensor accepted by the model,
`Discriminator.forward` returns the model's output reshaped to exactly two
dimensions, the first dimension being `len(predictions)` (the number of
samples) and the second the flattened count of each sample's remaining
elements; the reshaping alters no values. -/
theorem discriminator_forward_flattens (model : Tensor → Tensor) (x : Tensor)
    (h : (model x).shape ≠ []) :
    (Discriminator.forward model x).data = (model x).data ∧
    (Discriminator.forward model x).shape =
      [(model x).len, (model x).shape.tail.prod] ∧
    (Discriminator.forward model x).shape.length = 2 ∧
    (model x).len * (model x).shape.tail.prod = (model x).shape.prod := by
  refine ⟨rfl, rfl, rfl, ?_⟩
  rcases hsh : (model x).shape with _ | ⟨n, rest⟩
  · exact absurd hsh h
  · simp [Tensor.len, hsh]

/-- Witness for C1 at the identity model and the 2 × 3 tensor of the
rationals 1..6. -/
theorem discriminator_forward_flattens_witness :
    (id (Tensor.mk [2, 3] [1, 2, 3, 4, 5, 6])).shape ≠ [] ∧
    ((Discriminator.forward id (Tensor.mk [2, 3] [1, 2, 3, 4, 5, 6])).data =
        (id (Tensor.mk [2, 3] [1, 2, 3, 4, 5, 6])).data ∧
      (Discriminator.forward id (Tensor.mk [2, 3] [1, 2, 3, 4, 5, 6])).shape =
        [(id (Tensor.mk [2, 3] [1, 2, 3, 4, 5, 6])).len,
         (id (Tensor.mk [2, 3] [1, 2, 3, 4, 5, 6])).shape.tail.prod] ∧
      (Discriminator.forward id (Tensor.mk [2, 3] [1, 2, 3, 4, 5, 6])).shape.length = 2 ∧
      (id (Tensor.mk [2, 3] [1, 2, 3, 4, 5, 6])).len *
          (id (Tensor.mk [2, 3] [1, 2, 3, 4, 5, 6])).shape.tail.prod =
        (id (Tensor.mk [2, 3] [1, 2, 3, 4, 5, 6])).shape.prod) :=
  ⟨by decide, discriminator_forward_flattens id (Tensor.mk [2, 3] [1, 2, 3, 4, 5, 6]) (by decide)⟩

/-- Witness for C5 at `img_chan = 3`, `hidden_dim = 8`, checking the
kernel/stride property on the first convolution of the stack. -/
theorem discriminator_model_topology_witness :
    (4 : Nat) = 4 ∧ (2 : Nat) = 2 :=
  (discriminator_model_topology 3 8).2 3 8 4 2 (by decide)

/-- C2: the normalization applied by `techno_data_loader` to every sample is
fixed and per-channel, independent of the loaded data and of the
`batch_size` and `data_dir` arguments: the transform is always
`Normalize((-3.76, 0), (10.05, 1))`, so on a `(2, h, w)` sample channel 0 is
mapped to `(x - (-3.76)) / 10.05` and channel 1 to `(x - 0) / 1`. -/
theorem techno_normalization_fixed (load_pickle : String → List Tensor)
    (batch_size : Nat) (data_dir : String) (h w : Nat) (t : Tensor)
    (hsh : t.shape = [2, h, w]) :
    (techno_data_loader load_pickle batch_size data_dir).dataset.transform t =
      normalizeSample [(-3.76 : ℚ), 0] [(10.05 : ℚ), 1] t ∧
    (∀ i, i < h * w → i < t.data.length →
      ((techno_data_loader load_pickle batch_size data_dir).dataset.transform t).data.getD i 0 =
        (t.data.getD i 0 - (-3.76)) / 10.05) ∧
    (∀ i, h * w ≤ i → i < 2 * (h * w) → i < t.data.length →
      ((techno_data_loader load_pickle batch_size data_dir).dataset.transform t).data.getD i 0 =
        (t.data.getD i 0 - 0) / 1) := by
  refine ⟨rfl, ?_, ?_⟩
  · intro i hiw hilen
    show (normalizeSample [(-3.76 : ℚ), 0] [(10.05 : ℚ), 1] t).data.getD i 0 = _
    rw [normalizeSample, hsh]
    have hchan : i / (h * w) = 0 := Nat.div_eq_of_lt hiw
    have hlen : (t.data.enum.map fun p =>
        (p.2 - [(-3.76 : ℚ), 0].getD (p.1 / (h * w)) 0) /
          [(10.05 : ℚ), 1].getD (p.1 / (h * w)) 1).length = t.data.length := by
      simp
    rw [List.getD_eq_getElem _ _ (by rw [hlen]; exact hilen),
      List.getD_eq_getElem _ _ hilen]
    simp [hchan]
  · intro i hiw hi2 hilen
    show (normalizeSample [(-3.76 : ℚ), 0] [(10.05 : ℚ), 1] t).data.getD i 0 = _
    rw [normalizeSample, hsh]
    have hw0 : 0 < h * w := by omega
    have hchan : i / (h * w) = 1 := by
      have ha : 1 ≤ i / (h * w) := (Nat.one_le_div_iff hw0).mpr hiw
      have hb : i / (h * w) < 2 := (Nat.div_lt_iff_lt_mul hw0).mpr (by omega)
      omega
    have hlen : (t.data.enum.map fun p =>
        (p.2 - [(-3.76 : ℚ), 0].getD (p.1 / (h * w)) 0) /
          [(10.05 : ℚ), 1].getD (p.1 / (h * w)) 1).length = t.data.length := by
      simp
    rw [List.getD_eq_getElem _ _ (by rw [hlen]; exact hilen),
      List.getD_eq_getElem _ _ hilen]
    simp [hchan]

/-- Witness for C2 at a concrete loader and the 2 × 1 × 2 sample
`[1, 2, 5, 7]`: the first value is normalized with mean −3.76 and std
10.05. -/
theorem techno_normalization_fixed_witness :
    ((techno_data_loader (fun _ => []) 1 "d").dataset.transform
        (Tensor.mk [2, 1, 2] [1, 2, 5, 7])).data.getD 0 0 =
      ((Tensor.mk [2, 1, 2] [1, 2, 5, 7]).data.getD 0 0 - (-3.76)) / 10.05 :=
  (techno_normalization_fixed (fun _ => []) 1 "d" 1 2
    (Tensor.mk [2, 1, 2] [1, 2, 5, 7]) rfl).2.1 0 (by decide) (by decide)

/-- C9: on every well-formed `(2, h, w)` sample, the normalization used by
`techno_data_loader` preserves the shape and leaves the second channel (flat
indices at least `h * w`) unchanged: its mean is 0 and its std is 1, so the
transform is the identity there. -/
theorem normalize_second_channel_identity (h w : Nat) (t : Tensor)
    (hsh : t.shape = [2, h, w]) (hwf : t.data.length = t.shape.prod) :
    (normalizeSample [(-3.76 : ℚ), 0] [(10.05 : ℚ), 1] t).shape = t.shape ∧
    ∀ i, h * w ≤ i →
      (normalizeSample [(-3.76 : ℚ), 0] [(10.05 : ℚ), 1] t).data.getD i 0 =
        t.data.getD i 0 := by
  obtain ⟨sh, data⟩ := t
  simp only at hsh
  subst hsh
  simp only [List.prod_cons, List.prod_nil, mul_one] at hwf
  refine ⟨rfl, ?_⟩
  intro i hi
  simp only [normalizeSample]
  by_cases hilen : i < data.length
  · have hw0 : 0 < h * w := by
      rcases Nat.eq_zero_or_pos (h * w) with h0 | h0
      · omega
      · exact h0
    have hchan : 1 ≤ i / (h * w) := (Nat.one_le_div_iff hw0).mpr hi
    have hlen : (data.enum.map fun p =>
        (p.2 - [(-3.76 : ℚ), 0].getD (p.1 / (h * w)) 0) /
          [(10.05 : ℚ), 1].getD (p.1 / (h * w)) 1).length = data.length := by
      simp
    rw [List.getD_eq_getElem _ _ (by rw [hlen]; exact hilen),
      List.getD_eq_getElem _ _ hilen]
    simp only [List.getElem_map, List.getElem_enum]
    rcases hc : i / (h * w) with _ | _ | k
    · omega
    · norm_num
    · norm_num
  · rw [List.getD_eq_default, List.getD_eq_default]
    · omega
    · simp
      omega

/-- Witness for C9 at the 2 × 1 × 2 sample `[1, 2, 5, 7]`: the value 5 at
flat index 2 (channel 1) is unchanged. -/
theorem normalize_second_channel_identity_witness :
    (normalizeSample [(-3.76 : ℚ), 0] [(10.05 : ℚ), 1]
        (Tensor.mk [2, 1, 2] [1, 2, 5, 7])).data.getD 2 0 =
      (Tensor.mk [2, 1, 2] [1, 2, 5, 7]).data.getD 2 0 :=
  (normalize_second_channel_identity 1 2 (Tensor.mk [2, 1, 2] [1, 2, 5, 7])
    rfl (by decide)).2 2 (by decide)

/-- C6: `techno_data_loader` obtains its tensors by unpickling the file at
`data_dir` via `load_pickle` and wraps exactly those tensors, together with
the normalization transform, in the dataset handed to the batch iterator; it
reads from no other data source — two loaders whose unpickled contents
agree are equal, whatever their `data_dir` and `load_pickle`. -/
theorem techno_loader_pickle_source (load_pickle load_pickle' : String → List Tensor)
    (batch_size : Nat) (data_dir data_dir' : String)
    (hsame : load_pickle' data_dir' = load_pickle data_dir) :
    (techno_data_loader load_pickle batch_size data_dir).dataset.tensors =
      load_pickle data_dir ∧
    (techno_data_loader load_pickle batch_size data_dir).dataset.transform =
      composeTransforms [normalizeSample [(-3.76 : ℚ), 0] [(10.05 : ℚ), 1]] ∧
    techno_data_loader load_pickle' batch_size data_dir' =
      techno_data_loader load_pickle batch_size data_dir := by
  refine ⟨rfl, rfl, ?_⟩
  simp only [techno_data_loader, hsame]

/-- Witness for C6 at two loaders with equal (empty) unpickled contents and
different paths. -/
theorem techno_loader_pickle_source_witness :
    (techno_data_loader (fun _ => []) 4 "a").dataset.tensors =
      (fun _ => ([] : List Tensor)) "a" ∧
    (techno_data_loader (fun _ => []) 4 "a").dataset.transform =
      composeTransforms [normalizeSample [(-3.76 : ℚ), 0] [(10.05 : ℚ), 1]] ∧
    techno_data_loader (fun _ => []) 4 "b" =
      techno_data_loader (fun _ => []) 4 "a" :=
  techno_loader_pickle_source (fun _ => []) (fun _ => []) 4 "a" "b" rfl

/-- C7: `techno_data_loader` and `Discriminator` perform no tensor
computation of their own: the embedded loader equals the plain composition
of the library primitives pickle-load, per-sample normalize, dataset wrap
and shuffled batching (`specTechnoLoader`); `forward` is exactly the model
followed by the flattening view; and the default model's shape function
equals the plain composition of the library layers' shape functions
(`specForwardShape`). -/
theorem thin_composition_refinement :
    (∀ (load_pickle : String → List Tensor) (batch_size : Nat) (data_dir : String),
      techno_data_loader load_pickle batch_size data_dir =
        specTechnoLoader load_pickle batch_size data_dir) ∧
    (∀ (model : Tensor → Tensor) (x : Tensor),
      Discriminator.forward model x = Tensor.view2 (model x)) ∧
    (∀ sh : List Nat, Discriminator.forwardShape {} sh = specForwardShape sh) := by
  refine ⟨fun lp bs dd => rfl, fun m x => rfl, fun sh => ?_⟩
  simp [Discriminator.forwardShape, specForwardShape, specDiscriminatorShape,
    Discriminator.model, Discriminator.make_disc_block, modelShape, layerShape,
    leakyReLUShape, option_bind_assoc, option_bind_some_right]

/-- C3: for every `batch_size` and `data_dir`, the loader returned by
`techno_data_loader` is a batch iterator over the loaded dataset: it is
configured with the given `batch_size` and `shuffle=True`, one iteration
pass visits the samples in the order of the random permutation drawn by the
sampler (not dataset order), the concatenation of its batches is a
permutation of the transformed dataset, and every batch except possibly the
last has exactly `batch_size` samples. -/
theorem techno_loader_shuffled_batches (load_pickle : String → List Tensor)
    (batch_size : Nat) (data_dir : String) (order : List Nat)
    (hbs : 0 < batch_size)
    (hperm : order.Perm (List.range (load_pickle data_dir).length)) :
    (techno_data_loader load_pickle batch_size data_dir).shuffle = true ∧
    (techno_data_loader load_pickle batch_size data_dir).batch_size = batch_size ∧
    ((techno_data_loader load_pickle batch_size data_dir).batches order).flatten =
      order.map (techno_data_loader load_pickle batch_size data_dir).dataset.getItem ∧
    (((techno_data_loader load_pickle batch_size data_dir).batches order).flatten).Perm
      ((load_pickle data_dir).map
        (techno_data_loader load_pickle batch_size data_dir).dataset.transform) ∧
    ∀ b ∈ ((techno_data_loader load_pickle batch_size data_dir).batches order).dropLast,
      b.length = batch_size := by
  have hne : batch_size ≠ 0 := Nat.pos_iff_ne_zero.mp hbs
  have hbatch : (techno_data_loader load_pickle batch_size data_dir).batches order =
      chunkList batch_size
        (order.map (techno_data_loader load_pickle batch_size data_dir).dataset.getItem) := rfl
  have hmap : (List.range (load_pickle data_dir).length).map
      (techno_data_loader load_pickle batch_size data_dir).dataset.getItem =
      (load_pickle data_dir).map
        (techno_data_loader load_pickle batch_size data_dir).dataset.transform := by
    have hgi : (techno_data_loader load_pickle batch_size data_dir).dataset.getItem =
        (techno_data_loader load_pickle batch_size data_dir).dataset.transform ∘
          fun i => (load_pickle data_dir).getD i default := rfl
    rw [hgi, ← List.map_map, map_getD_range]
  refine ⟨rfl, rfl, ?_, ?_, ?_⟩
  · rw [hbatch, chunkList_flatten _ _ hne]
  · rw [hbatch, chunkList_flatten _ _ hne]
    exact hmap ▸ hperm.map _
  · intro b hb
    exact chunkList_dropLast_length batch_size _ hne b (hbatch ▸ hb)

/-- Witness for C3 at a three-sample dataset, batch size 2 and the sampler
permutation `[2, 0, 1]`: the iteration pass visits the samples in the
sampler's order. -/
theorem techno_loader_shuffled_batches_witness :
    ((techno_data_loader
        (fun _ => [Tensor.mk [1] [5], Tensor.mk [1] [7], Tensor.mk [1] [9]]) 2 "d").batches
        [2, 0, 1]).flatten =
      ([2, 0, 1] : List Nat).map
        (techno_data_loader
          (fun _ => [Tensor.mk [1] [5], Tensor.mk [1] [7], Tensor.mk [1] [9]]) 2 "d").dataset.getItem :=
  (techno_loader_shuffled_batches
    (fun _ => [Tensor.mk [1] [5], Tensor.mk [1] [7], Tensor.mk [1] [9]]) 2 "d" [2, 0, 1]
    (by decide) (by decide)).2.2.1

/-- C8: with the default construction, `Discriminator.forward` succeeds only
on 4-dimensional inputs whose two spatial dimensions are each at least 22:
each of the three convolutions has kernel size 4, stride 2 and no padding,
so each maps spatial size `H` to `(H - 4) / 2 + 1` and requires its input
spatial size to be at least 4; and for a batch of `N ≥ 1` height-22,
width-22 images the per-sample output is a single scalar, so the forward
pass returns shape `(N, 1)`. -/
theorem forward_shape_safety :
    (∀ sh out : List Nat, Discriminator.forwardShape {} sh = some out →
      ∃ n c h w, sh = [n, c, h, w] ∧ 22 ≤ h ∧ 22 ≤ w) ∧
    (∀ n : Nat, 1 ≤ n → Discriminator.forwardShape {} [n, 1, 22, 22] = some [n, 1]) := by
  have hm : Discriminator.model {} = [Layer.conv2d 1 16 4 2, Layer.batchNorm2d 16,
      Layer.leakyReLU (0.2 : ℚ) true, Layer.conv2d 16 32 4 2, Layer.batchNorm2d 32,
      Layer.leakyReLU (0.2 : ℚ) true, Layer.conv2d 32 1 4 2] := rfl
  constructor
  · intro sh out hsome
    rw [Discriminator.forwardShape, hm] at hsome
    rcases sh with _ | ⟨a, _ | ⟨b, _ | ⟨c, _ | ⟨d, _ | ⟨e, rest⟩⟩⟩⟩⟩
    · simp [modelShape, layerShape, conv2dShape] at hsome
    · simp [modelShape, layerShape, conv2dShape] at hsome
    · simp [modelShape, layerShape, conv2dShape] at hsome
    · -- three-dimensional input: the convolution may succeed but batch norm rejects it
      simp only [modelShape, layerShape, leakyReLUShape, conv2dShape] at hsome
      by_cases hc1 : a = 1 ∧ 0 < 2 ∧ 4 ≤ b ∧ 4 ≤ c
      · rw [if_pos hc1] at hsome
        simp [modelShape, layerShape, batchNorm2dShape] at hsome
      · rw [if_neg hc1] at hsome
        simp at hsome
    · -- four-dimensional input
      refine ⟨a, b, c, d, rfl, ?_⟩
      simp only [modelShape, layerShape, leakyReLUShape, conv2dShape] at hsome
      by_cases hc1 : b = 1 ∧ 0 < 2 ∧ 4 ≤ c ∧ 4 ≤ d
      case neg => rw [if_neg hc1] at hsome; simp at hsome
      case pos =>
      rw [if_pos hc1] at hsome
      simp only [Option.some_bind, modelShape, layerShape, leakyReLUShape,
        batchNorm2dShape] at hsome
      by_cases hc2 : True ∧ 1 < a * ((c - 4) / 2 + 1) * ((d - 4) / 2 + 1)
      case neg => rw [if_neg hc2] at hsome; simp at hsome
      case pos =>
      rw [if_pos hc2] at hsome
      simp only [Option.some_bind, modelShape, layerShape, leakyReLUShape,
        conv2dShape] at hsome
      by_cases hc3 : True ∧ 0 < 2 ∧ 4 ≤ (c - 4) / 2 + 1 ∧ 4 ≤ (d - 4) / 2 + 1
      case neg => rw [if_neg hc3] at hsome; simp at hsome
      case pos =>
      rw [if_pos hc3] at hsome
      simp only [Option.some_bind, modelShape, layerShape, leakyReLUShape,
        batchNorm2dShape] at hsome
      by_cases hc4 : True ∧
        1 < a * (((c - 4) / 2 + 1 - 4) / 2 + 1) * (((d - 4) / 2 + 1 - 4) / 2 + 1)
      case neg => rw [if_neg hc4] at hsome; simp at hsome
      case pos =>
      rw [if_pos hc4] at hsome
      simp only [Option.some_bind, modelShape, layerShape, leakyReLUShape,
        conv2dShape] at hsome
      by_cases hc5 : True ∧ 0 < 2 ∧ 4 ≤ ((c - 4) / 2 + 1 - 4) / 2 + 1 ∧
        4 ≤ ((d - 4) / 2 + 1 - 4) / 2 + 1
      case neg => rw [if_neg hc5] at hsome; simp at hsome
      case pos =>
      obtain ⟨-, -, h1, h2⟩ := hc1
      obtain ⟨-, -, h3, h4⟩ := hc3
      obtain ⟨-, -, h5, h6⟩ := hc5
      exact ⟨by omega, by omega⟩
    · simp [modelShape, layerShape, conv2dShape] at hsome
  · intro n hn
    have e2 : batchNorm2dShape 16 [n, 16, 10, 10] = some [n, 16, 10, 10] := by
      have hgt : 1 < n * 10 * 10 := by omega
      simp [batchNorm2dShape, hgt]
    have e4 : batchNorm2dShape 32 [n, 32, 4, 4] = some [n, 32, 4, 4] := by
      have hgt : 1 < n * 4 * 4 := by omega
      simp [batchNorm2dShape, hgt]
    rw [Discriminator.forwardShape, hm]
    simp [modelShape, layerShape, leakyReLUShape, conv2dShape, e2, e4, view2Shape]

/-- Witness for C8 at a batch of three 22 × 22 one-channel images: the
forward pass accepts the input, which is indeed 4-dimensional with both
spatial sizes at least 22, and returns shape `(3, 1)`. -/
theorem forward_shape_safety_witness :
    (∃ n c h w, ([3, 1, 22, 22] : List Nat) = [n, c, h, w] ∧ 22 ≤ h ∧ 22 ≤ w) ∧
    Discriminator.forwardShape {} [3, 1, 22, 22] = some [3, 1] :=
  ⟨forward_shape_safety.1 [3, 1, 22, 22] [3, 1]
      (forward_shape_safety.2 3 (by decide)),
    forward_shape_safety.2 3 (by decide)⟩
